import Mathlib

/-!
Verification of the PSXGPU capture decoder (scripts/parse_psxgpu_dump.py).

The development shallowly embeds the decoder: byte buffers are lists of
naturals (each entry one byte), 32-bit words are naturals, and the
variable-length GP0 primitive decoder is a fuel-indexed structural
recursion (fuel equal to the word-stream length always suffices because
every step consumes at least one word).
-/

namespace PsxGpuDump

/-- Sign-extension of an 11-bit field, as in sign_extend_11: mask to 11
bits, then subtract 0x800 when bit 10 is set. -/
def sign_extend_11 (x : Nat) : Int :=
  let m := x &&& 0x7FF
  if m &&& 0x400 ≠ 0 then (m : Int) - 0x800 else (m : Int)

/-- 5-bit to 8-bit color channel expansion, as in expand5to8. -/
def expand5to8 (x : Nat) : Nat := (x <<< 3) ||| (x >>> 2)

/-- Little-endian 32-bit word read at a byte offset (struct.unpack "<I"),
with out-of-range bytes read as 0; all uses in the decoder are guarded by
explicit length checks. -/
def readWord32LE (d : List Nat) (pos : Nat) : Nat :=
  d.getD pos 0 + 256 * d.getD (pos + 1) 0 + 65536 * d.getD (pos + 2) 0 +
    16777216 * d.getD (pos + 3) 0

/-- The packet reader get_next_packet: at a cursor position, either a
(type, payload) packet plus the new cursor, or none when fewer than 4
bytes remain or the declared payload would overrun the buffer. -/
def getNextPacket (d : List Nat) (pos : Nat) :
    Option ((Nat × List Nat) × Nat) :=
  if pos + 4 > d.length then none
  else
    let hdr := readWord32LE d pos
    let length := hdr &&& 0xFFFFFF
    let ptype := (hdr >>> 24) &&& 0xFF
    let payloadSize := length * 4
    if pos + 4 + payloadSize > d.length then none
    else some ((ptype, (d.drop (pos + 4)).take payloadSize), pos + 4 + payloadSize)

/-- The 10-byte magic tag PSXGPUDUMP. -/
def psxMagic : List Nat :=
  [0x50, 0x53, 0x58, 0x47, 0x50, 0x55, 0x44, 0x55, 0x4D, 0x50]

/-- parse_header: require at least 14 bytes and the magic tag, then the
first packet starts at offset 14 (the ValueError path is modelled as
none). -/
def parseHeader (d : List Nat) : Option Nat :=
  if 14 ≤ d.length ∧ d.take 10 = psxMagic then some 14 else none

/-- Payload bytes to little-endian 32-bit words; a trailing group of fewer
than 4 bytes is dropped, matching unpacking len(payload)//4 words. -/
def wordsOf : List Nat → List Nat
  | b0 :: b1 :: b2 :: b3 :: rest =>
      (b0 + 256 * b1 + 65536 * b2 + 16777216 * b3) :: wordsOf rest
  | _ => []

/-- gp0_param_count: trailing parameter word count for a GP0 opcode;
-1 marks a polyline (variable length, resolved by terminator scan). -/
def gp0_param_count (cmd : Nat) : Int :=
  if cmd ≤ 0x1F then 0
  else if 0x20 ≤ cmd ∧ cmd ≤ 0x3F then
    let verts : Int := if cmd &&& 0x08 ≠ 0 then 4 else 3
    if ¬cmd &&& 0x10 ≠ 0 ∧ ¬cmd &&& 0x04 ≠ 0 then verts
    else if ¬cmd &&& 0x10 ≠ 0 ∧ cmd &&& 0x04 ≠ 0 then verts * 2
    else if cmd &&& 0x10 ≠ 0 ∧ ¬cmd &&& 0x04 ≠ 0 then verts * 2 - 1
    else verts * 3 - 1
  else if 0x40 ≤ cmd ∧ cmd ≤ 0x5F then
    if cmd &&& 0x08 ≠ 0 then -1
    else if cmd &&& 0x10 ≠ 0 then 3 else 2
  else if 0x60 ≤ cmd ∧ cmd ≤ 0x7F then
    let sizeCode := (cmd >>> 3) &&& 3
    let params : Int := 1
    let params := if sizeCode = 0 then params + 1 else params
    let params := if cmd &&& 0x04 ≠ 0 then params + 1 else params
    params
  else if 0xE0 ≤ cmd ∧ cmd ≤ 0xFF then 0
  else 0

/-- Spec-side polygon operand-count table of section 4.2: verts is 4 when
the quad bit is set else 3; flat untextured polygons take verts operand
words, flat textured verts*2, gouraud untextured verts*2-1, and
gouraud textured verts*3-1. Written from the specification text, for
comparison with gp0_param_count. -/
def polyCountSpec (cmd : Nat) : Int :=
  let verts : Int := if cmd &&& 0x08 ≠ 0 then 4 else 3
  if cmd &&& 0x10 ≠ 0 ∧ cmd &&& 0x04 ≠ 0 then 3 * verts - 1
  else if cmd &&& 0x10 ≠ 0 then 2 * verts - 1
  else if cmd &&& 0x04 ≠ 0 then 2 * verts
  else verts

/-- A decoded polygon vertex: sign-extended 11-bit coordinates and the
8-bit expanded color channels printed with it. -/
structure Vert where
  x : Int
  y : Int
  r : Nat
  g : Nat
  b : Nat
deriving DecidableEq, Repr

/-- Structured form of one decoded GP0 operation (the information carried
by the printed line in parse_gp0_stream). -/
inductive GP0Op where
  | clipTL (x y : Nat)
  | clipBR (x y : Nat)
  | drawOffset (ox oy : Int)
  | envOther (cmd val : Nat)
  | poly (quad gouraud textured : Bool) (verts : List Vert)
  | polyIncomplete (cmd : Nat)
  | line (consumed : Nat)
  | lineIncomplete (cmd : Nat)
  | rect (cmd : Nat)
  | rectIncomplete (cmd : Nat)
  | vramWrite (npixels : Nat)
  | unknown (val : Nat)
deriving DecidableEq, Repr

/-- Whether an operation is one of the incomplete (truncated primitive)
markers. -/
def GP0Op.isIncomplete : GP0Op → Bool
  | .polyIncomplete _ => true
  | .lineIncomplete _ => true
  | .rectIncomplete _ => true
  | _ => false

/-- parse_gp0_env: decode of an environment command word (opcode
0xE1..0xE6). -/
def parseGp0Env (val : Nat) : GP0Op :=
  let cmd := (val >>> 24) &&& 0xFF
  if cmd = 0xE3 then .clipTL (val &&& 0x3FF) ((val >>> 10) &&& 0x1FF)
  else if cmd = 0xE4 then .clipBR (val &&& 0x3FF) ((val >>> 10) &&& 0x1FF)
  else if cmd = 0xE5 then
    .drawOffset (sign_extend_11 (val &&& 0x7FF))
      (sign_extend_11 ((val >>> 11) &&& 0x7FF))
  else .envOther cmd val

/-- The polygon vertex loop of parse_gp0_stream: for each vertex after the
first, gouraud polygons first re-read the color word; the loop stops early
if the index reaches the chunk end; textured polygons skip one extra
texture-coordinate word per vertex. Arguments: first-iteration flag,
current index, current color, vertices remaining. -/
def buildVerts (gouraud textured : Bool) (chunk : List Nat) :
    Bool → Nat → Nat → Nat → Nat → Nat → List Vert
  | _, _, _, _, _, 0 => []
  | first, idx, r, g, b, n + 1 =>
    let cw := chunk.getD idx 0
    let t : Nat × Nat × Nat × Nat :=
      if first = false ∧ gouraud = true then
        (expand5to8 (cw &&& 0x1F), expand5to8 ((cw >>> 5) &&& 0x1F),
          expand5to8 ((cw >>> 10) &&& 0x1F), idx + 1)
      else (r, g, b, idx)
    let r1 := t.1
    let g1 := t.2.1
    let b1 := t.2.2.1
    let idx1 := t.2.2.2
    if chunk.length ≤ idx1 then []
    else
      let v := chunk.getD idx1 0
      let idx2 := idx1 + 1 + (if textured then 1 else 0)
      ⟨sign_extend_11 (v &&& 0x7FF), sign_extend_11 ((v >>> 16) &&& 0x7FF),
          r1, g1, b1⟩ ::
        buildVerts gouraud textured chunk false idx2 r1 g1 b1 n

/-- The polyline terminator test: (w & 0xF000F000) == 0x50005000. -/
def isPolylineTerm (w : Nat) : Bool := w &&& 0xF000F000 == 0x50005000

/-- The polyline terminator scan loop: starting from relative index j,
step forward (2 words for shaded polylines, 1 otherwise) until a word at a
scanned position matches the terminator mask or the index leaves the
stream. Fuel-indexed; fuel equal to the stream length suffices. -/
def polylineScanAux (ws : List Nat) (step : Nat) : Nat → Nat → Nat
  | 0, j => j
  | fuel + 1, j =>
    if j < ws.length then
      if isPolylineTerm (ws.getD j 0) then j
      else polylineScanAux ws step fuel (j + step)
    else j

/-- Relative index reached by the polyline scan started at index 1. -/
def polylineScan (ws : List Nat) (step : Nat) : Nat :=
  polylineScanAux ws step ws.length 1

/-- One step of parse_gp0_stream on the remaining word-stream suffix ws
(whose head is the opcode word). Returns the emitted operation (none for
the silently skipped truncated 0xA0 header), the number of words
consumed, and a flag that is false exactly when the step hit a
truncation (an incomplete marker, a skipped short 0xA0 header, or a
0xA0 transfer clamped at the stream end). -/
def gp0Step (ws : List Nat) : Option GP0Op × Nat × Bool :=
  match ws with
  | [] => (none, 0, true)
  | val :: _ =>
    let cmd := (val >>> 24) &&& 0xFF
    if 0xE1 ≤ cmd ∧ cmd ≤ 0xE6 then
      (some (parseGp0Env val), 1, true)
    else if 0x20 ≤ cmd ∧ cmd ≤ 0x3F then
      let nparams := (gp0_param_count cmd).toNat
      if ws.length < 1 + nparams then
        (some (.polyIncomplete cmd), 1, false)
      else
        let chunk := ws.take (1 + nparams)
        let quad := decide (cmd &&& 0x08 ≠ 0)
        let gouraud := decide (cmd &&& 0x10 ≠ 0)
        let textured := decide (cmd &&& 0x04 ≠ 0)
        let nverts := if quad then 4 else 3
        let r := expand5to8 (chunk.getD 0 0 &&& 0x1F)
        let g := expand5to8 ((chunk.getD 0 0 >>> 5) &&& 0x1F)
        let b := expand5to8 ((chunk.getD 0 0 >>> 10) &&& 0x1F)
        let verts := buildVerts gouraud textured chunk true 1 r g b nverts
        (some (.poly quad gouraud textured verts), chunk.length, true)
    else if 0x40 ≤ cmd ∧ cmd ≤ 0x5F then
      if cmd &&& 0x08 ≠ 0 then
        let s := if cmd &&& 0x10 ≠ 0 then 2 else 1
        let j := polylineScan ws s
        if j ≤ ws.length then (some (.line j), j, true)
        else (some (.lineIncomplete cmd), 1, false)
      else
        let nparams := (gp0_param_count cmd).toNat
        if 1 + nparams ≤ ws.length then
          (some (.line (1 + nparams)), 1 + nparams, true)
        else (some (.lineIncomplete cmd), 1, false)
    else if 0x60 ≤ cmd ∧ cmd ≤ 0x7F then
      let nparams := (gp0_param_count cmd).toNat
      if 1 + nparams ≤ ws.length then
        (some (.rect cmd), 1 + nparams, true)
      else (some (.rectIncomplete cmd), 1, false)
    else if cmd = 0xA0 then
      if 3 ≤ ws.length then
        let n := (ws.getD 1 0 &&& 0xFFFF) * (ws.getD 2 0 &&& 0xFFFF)
        let nwords := 3 + (n + 1) / 2
        (some (.vramWrite n), min nwords ws.length, decide (nwords ≤ ws.length))
      else (none, 1, false)
    else (some (.unknown val), 1, true)

/-- Fuel-indexed form of the parse_gp0_stream scan loop; every step
consumes at least one word, so fuel equal to the stream length is always
enough. -/
def parseGp0Aux : Nat → List Nat → List (Nat × GP0Op)
  | 0, _ => []
  | fuel + 1, ws =>
    match ws with
    | [] => []
    | _ :: _ =>
      let r := gp0Step ws
      let tail := parseGp0Aux fuel (ws.drop r.2.1)
      match r.1 with
      | none => tail
      | some op => (r.2.1, op) :: tail

/-- parse_gp0_stream: decode a GP0 word stream into the list of
(consumed word count, operation) pairs. -/
def parse_gp0_stream (ws : List Nat) : List (Nat × GP0Op) :=
  parseGp0Aux ws.length ws

/-- Fuel-indexed well-formedness check: true when the scan over ws never
hits a truncation (no incomplete marker, no skipped or clamped 0xA0
transfer). -/
def gp0WellFormedAux : Nat → List Nat → Bool
  | 0, _ => true
  | fuel + 1, ws =>
    match ws with
    | [] => true
    | _ :: _ =>
      let r := gp0Step ws
      r.2.2 && gp0WellFormedAux fuel (ws.drop r.2.1)

/-- A GP0 word stream is well formed (non-truncated) when its decode
never hits a truncation case. -/
def gp0WellFormed (ws : List Nat) : Bool := gp0WellFormedAux ws.length ws

/-- The packet enumeration loop shared by all modes of main: while the
cursor is inside the buffer, read the next packet; stop at the
no-more-packets sentinel. Each element carries the packet and the cursor
position just after it. Fuel-indexed; the buffer length suffices since
every packet advances the cursor by at least 4. -/
def packetsWithPosAux : Nat → List Nat → Nat → List ((Nat × List Nat) × Nat)
  | 0, _, _ => []
  | fuel + 1, d, pos =>
    if pos < d.length then
      match getNextPacket d pos with
      | none => []
      | some (pkt, pos1) => (pkt, pos1) :: packetsWithPosAux fuel d pos1
    else []

/-- All packets readable from position pos, each with its end offset. -/
def packetsWithPos (d : List Nat) (pos : Nat) : List ((Nat × List Nat) × Nat) :=
  packetsWithPosAux d.length d pos

/-- The first pass of main over the packet stream: record the offset
after every TraceBegin packet (type 5), and after every VSync packet
(type 2) seen once a TraceBegin has occurred. -/
def firstPassOffsetsAux : Bool → List ((Nat × List Nat) × Nat) → List Nat
  | _, [] => []
  | inTrace, ((ptype, _), pos) :: rest =>
    if ptype = 5 then pos :: firstPassOffsetsAux true rest
    else if ptype = 2 ∧ inTrace then pos :: firstPassOffsetsAux inTrace rest
    else firstPassOffsetsAux inTrace rest

/-- Frame-boundary offsets recorded by the first pass of main. -/
def firstPassOffsets (pkts : List ((Nat × List Nat) × Nat)) : List Nat :=
  firstPassOffsetsAux false pkts

/-- An output line of the frame-dump mode of main, in structured form. -/
inductive OutEvent where
  | frameHeader (n : Int)
  | vsync
  | vramInitSkipped (nwords : Nat)
  | gp0op (op : GP0Op)
  | gp1 (cmd : Nat) (word : Nat)
deriving DecidableEq, Repr

/-- Result of the frame-dump pass of main: the printed lines, the
GP0/GP1/other data packets that reached the dump stage (in order, with
their end offsets), and the packets-in-frame counter. -/
structure DumpResult where
  events : List OutEvent
  dumped : List ((Nat × List Nat) × Nat)
  pktCount : Nat
deriving DecidableEq, Repr

/-- The printed lines main produces for one dumped packet: GP0 payloads
are decoded with parse_gp0_stream unless they carry the initial-VRAM
signature (opcode 0xA0 and two zero origin words at the start); GP1
packets with at least 4 payload bytes print their first word. -/
def dumpPacketEvents (ptype : Nat) (payload : List Nat) : List OutEvent :=
  if ptype = 0 then
    let words := wordsOf payload
    if 3 ≤ words.length ∧ (words.getD 0 0) >>> 24 = 0xA0 ∧
        words.getD 1 0 = 0 ∧ words.getD 2 0 = 0 then
      [OutEvent.vramInitSkipped (words.length - 3)]
    else (parse_gp0_stream words).map (fun p => OutEvent.gp0op p.2)
  else if ptype = 1 ∧ 4 ≤ payload.length then
    let w := readWord32LE payload 0
    [OutEvent.gp1 ((w >>> 24) &&& 0x3F) w]
  else []

/-- The second (frame-dump) pass of main: walk the packets with a frame
counter that starts at -1 and is incremented on each TraceBegin and each
VSync; dump packets only while the counter equals the target frame;
when a specific frame was requested, stop as soon as the counter exceeds
it. hasTarget is true when a frame index was given on the command line,
fts is the target frame, dumping the initial dumping flag. -/
def dumpAux (hasTarget : Bool) (fts : Int) :
    List ((Nat × List Nat) × Nat) → Int → Bool → DumpResult
  | [], _, _ => ⟨[], [], 0⟩
  | ((ptype, payload), pos) :: rest, cf, dumping =>
    if ptype = 5 then
      let cf1 := cf + 1
      if cf1 = fts then
        let r := dumpAux hasTarget fts rest cf1 true
        ⟨.frameHeader cf1 :: r.events, r.dumped, r.pktCount⟩
      else
        let r := dumpAux hasTarget fts rest cf1 dumping
        ⟨r.events, r.dumped, r.pktCount⟩
    else if ptype = 2 then
      let evs := if dumping ∧ cf = fts then [OutEvent.vsync] else []
      let cf1 := cf + 1
      if cf1 > fts ∧ hasTarget then ⟨evs, [], 0⟩
      else if cf1 = fts then
        let r := dumpAux hasTarget fts rest cf1 true
        ⟨evs ++ r.events, r.dumped, r.pktCount⟩
      else if cf1 > fts ∧ hasTarget then ⟨evs, [], 0⟩
      else
        let r := dumpAux hasTarget fts rest cf1 dumping
        ⟨evs ++ r.events, r.dumped, r.pktCount⟩
    else if ¬dumping ∨ cf ≠ fts then
      dumpAux hasTarget fts rest cf dumping
    else
      let r := dumpAux hasTarget fts rest cf dumping
      ⟨dumpPacketEvents ptype payload ++ r.events,
        ((ptype, payload), pos) :: r.dumped, r.pktCount + 1⟩

/-- Overall outcome of the frame-dump mode of main. -/
inductive MainOutcome where
  | badHeader
  | noFrames
  | ok (events : List OutEvent) (totalFrames : Nat) (pktCount : Nat)
deriving DecidableEq, Repr

/-- The reported total frame count of a frame-dump outcome (the number
printed in the final Total frames line), when the run reached it. -/
def MainOutcome.totalFramesOf : MainOutcome → Option Nat
  | .ok _ n _ => some n
  | _ => none

/-- The frame-dump mode of main: validate the header, build the frame
index in a first pass, then re-walk the stream dumping the target frame
(frame 0 when no index was given). totalFrames is the length of the
frame index, as printed in the final Total frames line. -/
def mainFrameMode (d : List Nat) (frameIdx : Option Nat) : MainOutcome :=
  match parseHeader d with
  | none => .badHeader
  | some pos0 =>
    let pkts := packetsWithPos d pos0
    let offs := firstPassOffsets pkts
    if offs.isEmpty then .noFrames
    else
      let fts : Int := (frameIdx.getD 0 : Nat)
      let dumping0 := frameIdx.isNone || frameIdx == some 0
      let r := dumpAux frameIdx.isSome fts pkts (-1) (dumping0 = true)
      .ok r.events offs.length r.pktCount

/-- The frame-dump pass run for an explicitly requested frame n (the
dumping flag starts true only for frame 0). -/
def requestFrame (d : List Nat) (n : Nat) : DumpResult :=
  match parseHeader d with
  | none => ⟨[], [], 0⟩
  | some pos0 => dumpAux true (n : Int) (packetsWithPos d pos0) (-1) (n = 0)

/-- The GP0/GP1/other data packets (not TraceBegin, not VSync) whose end
offsets lie strictly between the boundary offsets a and b. -/
def dataPacketsBetween (pkts : List ((Nat × List Nat) × Nat)) (a b : Nat) :
    List ((Nat × List Nat) × Nat) :=
  pkts.filter (fun pp => decide (a < pp.2 ∧ pp.2 < b ∧ pp.1.1 ≠ 5 ∧ pp.1.1 ≠ 2))

/-- The test of the vram mode of main for the initial full-framebuffer
blit: a GP0 packet whose word stream has at least 3 + 262144 words and
begins with opcode 0xA0 and two zero origin words. -/
def qualifiesVram (pkt : Nat × List Nat) : Bool :=
  decide (pkt.1 = 0 ∧ 4 ≤ pkt.2.length ∧
    262147 ≤ (wordsOf pkt.2).length ∧
    ((wordsOf pkt.2).getD 0 0) >>> 24 = 0xA0 ∧
    (wordsOf pkt.2).getD 1 0 = 0 ∧ (wordsOf pkt.2).getD 2 0 = 0)

/-- The vram-mode scan of main: the 262144 VRAM words of the first
qualifying packet, or none when no packet qualifies by end of stream. -/
def findVramWords : List (Nat × List Nat) → Option (List Nat)
  | [] => none
  | pkt :: rest =>
    if qualifiesVram pkt then some (((wordsOf pkt.2).drop 3).take 262144)
    else findVramWords rest

/-- Artifacts the vram mode can produce. -/
inductive VramArtifact where
  | asciiPreview
  | ppmImage
  | layoutSummary
deriving DecidableEq, Repr

/-- Observable outcome of the vram mode: whether VRAM was found, the
process exit status, and the artifacts produced. -/
structure VramOutcome where
  found : Bool
  exitCode : Nat
  artifacts : List VramArtifact
deriving DecidableEq, Repr

/-- The vram mode of main: header validation, then the scan for the
initial blit; on failure it prints VRAM not found and exits with status
1 producing nothing; on success it renders the preview and writes the
image and summary files. none models the invalid-header error. -/
def vramMode (d : List Nat) : Option VramOutcome :=
  match parseHeader d with
  | none => none
  | some pos0 =>
    match findVramWords ((packetsWithPos d pos0).map Prod.fst) with
    | none => some ⟨false, 1, []⟩
    | some vw =>
      if vw.isEmpty then some ⟨false, 1, []⟩
      else some ⟨true, 0, [.asciiPreview, .ppmImage, .layoutSummary]⟩

/-- A 32-bit packet-header word with the given type and word-count fields,
serialized little-endian and followed by word-count words of zero payload. -/
def encodePacketBytes (t c : Nat) : List Nat :=
  [c % 256, c / 256 % 256, c / 65536 % 256, t] ++ List.replicate (4 * c) 0

/-- Container header bytes: magic plus the 4 reserved/version bytes. -/
def headerBytes : List Nat := psxMagic ++ [0x76, 0x31, 0x00, 0x00]

/-- Minimal crafted capture: container header, one TraceBegin packet, one
GP0 packet holding a single flat-shaded triangle command, one VSync
packet. -/
def capture3 : List Nat :=
  headerBytes ++
    [0x00, 0x00, 0x00, 0x05] ++
    [0x04, 0x00, 0x00, 0x00] ++
      [0x1F, 0x7C, 0x00, 0x20] ++
      [0x0A, 0x00, 0x14, 0x00] ++
      [0x64, 0x00, 0x1E, 0x00] ++
      [0x32, 0x00, 0xC8, 0x00] ++
    [0x00, 0x00, 0x00, 0x02]

/-- Synthetic capture for the frame segmenter: one TraceBegin followed by
3 VSync packets, with one single-word GP0 packet inside each of the three
delimited frames. -/
def capture5 : List Nat :=
  headerBytes ++
    [0x00, 0x00, 0x00, 0x05] ++
    [0x01, 0x00, 0x00, 0x00] ++ [0x0A, 0x00, 0x00, 0x00] ++
    [0x00, 0x00, 0x00, 0x02] ++
    [0x01, 0x00, 0x00, 0x00] ++ [0x0B, 0x00, 0x00, 0x00] ++
    [0x00, 0x00, 0x00, 0x02] ++
    [0x01, 0x00, 0x00, 0x00] ++ [0x0C, 0x00, 0x00, 0x00] ++
    [0x00, 0x00, 0x00, 0x02]

/-- Capture containing no full-frame 0xA0 blit: a TraceBegin and one
small GP0 packet. -/
def capture9 : List Nat :=
  headerBytes ++
    [0x00, 0x00, 0x00, 0x05] ++
    [0x01, 0x00, 0x00, 0x00] ++ [0x0A, 0x00, 0x00, 0x00] ++
    [0x00, 0x00, 0x00, 0x02]

/-! ## Theorems -/

/-- C2: for every GP0 polygon opcode in 0x20..0x3F the operand word count
computed by gp0_param_count matches the spec's policy table polyCountSpec
on all 8 combinations of the quad, gouraud and textured bits; in
particular the flat untextured triangle opcode 0x20 takes 3 operand words
and the gouraud textured quad opcode 0x3C takes 4*3-1 = 11. -/
theorem gp0_polygon_operand_count :
    gp0_param_count 0x20 = 3 ∧ gp0_param_count 0x3C = 11 ∧
      ∀ cmd, cmd < 0x40 → 0x20 ≤ cmd → gp0_param_count cmd = polyCountSpec cmd := by
  decide

/-- Witness for C2: the policy agreement evaluated at the concrete
gouraud untextured quad opcode 0x34. -/
theorem gp0_polygon_operand_count_witness :
    gp0_param_count 0x34 = polyCountSpec 0x34 :=
  gp0_polygon_operand_count.2.2 0x34 (by decide) (by decide)

/-- C8: the draw-offset sign extension maps field 0x7FF to -1, 0x000 to
0, 0x400 to -1024, and in general every 11-bit field value at least 0x400
becomes negative by subtracting 0x800. -/
theorem draw_offset_sign_extension :
    sign_extend_11 0x7FF = -1 ∧ sign_extend_11 0x000 = 0 ∧
      sign_extend_11 0x400 = -1024 ∧
      ∀ x, x < 0x800 → 0x400 ≤ x →
        sign_extend_11 x = (x : Int) - 0x800 ∧ sign_extend_11 x < 0 := by
  refine ⟨by decide, by decide, by decide, fun x hlt hge => ?_⟩
  have hm : x &&& 0x7FF = x := by
    have h := Nat.and_pow_two_sub_one_eq_mod x 11
    norm_num at h
    omega
  have hb : x &&& 0x400 ≠ 0 := by
    have h := Nat.and_two_pow x 10
    have ht : x.testBit 10 = true := by
      rw [Nat.testBit_to_div_mod]
      simp only [decide_eq_true_eq]
      omega
    rw [ht] at h
    norm_num at h
    omega
  have hs : sign_extend_11 x = (x : Int) - 0x800 := by
    simp only [sign_extend_11, hm]
    rw [if_pos hb]
  exact ⟨hs, by rw [hs]; omega⟩

/-- Witness for C8: the general sign-extension law evaluated at the
concrete field value 0x500. -/
theorem draw_offset_sign_extension_witness :
    sign_extend_11 0x500 = (0x500 : Int) - 0x800 ∧ sign_extend_11 0x500 < 0 :=
  draw_offset_sign_extension.2.2.2 0x500 (by decide) (by decide)

/-- C6: the packet reader returns the no-more-packets sentinel exactly
when fewer than 4 bytes remain at the cursor or when the declared payload
length would overrun the buffer end. -/
theorem packet_reader_sentinel (d : List Nat) (pos : Nat) :
    getNextPacket d pos = none ↔
      (d.length < pos + 4 ∨
        d.length < pos + 4 + (readWord32LE d pos &&& 0xFFFFFF) * 4) := by
  simp only [getNextPacket]
  split_ifs with h1 h2
  · simp; omega
  · simp; omega
  · simp; omega

/-- C7: the header fields are word_count = header and 0xFFFFFF and
type = (header shifted right 24) and 0xFF; encoding a packet header with
any type below 256 and any word count below 2 to the 24 and re-reading it
through the packet reader reproduces both fields exactly. -/
theorem packet_header_roundtrip (t c : Nat) (ht : t < 256) (hc : c < 16777216) :
    getNextPacket (encodePacketBytes t c) 0 =
      some ((t, List.replicate (4 * c) 0), 4 + c * 4) ∧
      (List.replicate (4 * c) 0).length / 4 = c := by
  have hword : readWord32LE (encodePacketBytes t c) 0 = c + 16777216 * t := by
    simp [readWord32LE, encodePacketBytes, List.getD]
    omega
  have hand : (c + 16777216 * t) &&& 0xFFFFFF = c := by
    have h := Nat.and_pow_two_sub_one_eq_mod (c + 16777216 * t) 24
    norm_num at h
    omega
  have hshift : ((c + 16777216 * t) >>> 24) &&& 0xFF = t := by
    rw [Nat.shiftRight_eq_div_pow]
    have h := Nat.and_pow_two_sub_one_eq_mod ((c + 16777216 * t) / 2 ^ 24) 8
    norm_num at h ⊢
    omega
  have hlen : (encodePacketBytes t c).length = 4 + 4 * c := by
    simp [encodePacketBytes]
    omega
  refine ⟨?_, by simp⟩
  simp only [getNextPacket, hword, hand, hshift, hlen]
  rw [if_neg (by omega), if_neg (by omega)]
  simp [encodePacketBytes, List.take_replicate, Nat.mul_comm c 4]

/-- Witness for C7: the round trip evaluated at type 0x12 and word count
2. -/
theorem packet_header_roundtrip_witness :
    getNextPacket (encodePacketBytes 0x12 2) 0 =
      some ((0x12, List.replicate 8 0), 12) ∧
      (List.replicate 8 0).length / 4 = 2 :=
  packet_header_roundtrip 0x12 2 (by decide) (by decide)

/-- The polyline scan never moves backwards. -/
theorem polylineScanAux_le (ws : List Nat) (s : Nat) :
    ∀ fuel j, j ≤ polylineScanAux ws s fuel j := by
  intro fuel
  induction fuel with
  | zero => intro j; simp [polylineScanAux]
  | succ n ih =>
    intro j
    simp only [polylineScanAux]
    split_ifs with h1 h2
    · exact le_refl j
    · exact le_trans (Nat.le_add_right j s) (ih (j + s))
    · exact le_refl j

/-- The polyline scan result is at least its starting index 1. -/
theorem polylineScan_ge_one (ws : List Nat) (s : Nat) : 1 ≤ polylineScan ws s :=
  polylineScanAux_le ws s ws.length 1

/-- Every decode step consumes at least one word and never more than the
remaining stream. -/
theorem gp0Step_consumed_pos (ws : List Nat) (h : ws ≠ []) :
    1 ≤ (gp0Step ws).2.1 ∧ (gp0Step ws).2.1 ≤ ws.length := by
  match ws with
  | v :: rest =>
    simp only [gp0Step]
    split_ifs <;>
      refine ⟨?_, ?_⟩ <;>
      simp only [List.length_take, List.length_cons] at * <;>
      first
        | omega
        | exact polylineScan_ge_one _ _

/-- A decode step that hits no truncation always emits an operation. -/
theorem gp0Step_ok_some (ws : List Nat) (h : ws ≠ [])
    (hok : (gp0Step ws).2.2 = true) : (gp0Step ws).1.isSome = true := by
  match ws with
  | v :: rest =>
    simp only [gp0Step] at hok ⊢
    split_ifs at hok ⊢ <;> simp_all

/-- The decoder yields nothing on an empty stream, at any fuel. -/
theorem parseGp0Aux_nil (fuel : Nat) : parseGp0Aux fuel [] = [] := by
  cases fuel <;> rfl

/-- The fuel argument is irrelevant once it is at least the stream
length. -/
theorem parseGp0Aux_fuel_congr :
    ∀ f1 f2 ws, ws.length ≤ f1 → ws.length ≤ f2 →
      parseGp0Aux f1 ws = parseGp0Aux f2 ws := by
  intro f1
  induction f1 with
  | zero =>
    intro f2 ws h1 h2
    have hnil : ws = [] := List.length_eq_zero.mp (Nat.le_zero.mp h1)
    subst hnil
    rw [parseGp0Aux_nil, parseGp0Aux_nil]
  | succ n ih =>
    intro f2 ws h1 h2
    cases f2 with
    | zero =>
      have hnil : ws = [] := List.length_eq_zero.mp (Nat.le_zero.mp h2)
      subst hnil
      rw [parseGp0Aux_nil, parseGp0Aux_nil]
    | succ m =>
      cases ws with
      | nil => rw [parseGp0Aux_nil, parseGp0Aux_nil]
      | cons v rest =>
        obtain ⟨hc1, hc2⟩ := gp0Step_consumed_pos (v :: rest) (by simp)
        simp only [parseGp0Aux]
        have hdl : ((v :: rest).drop (gp0Step (v :: rest)).2.1).length ≤ n := by
          simp only [List.length_drop, List.length_cons] at *
          omega
        have hdl2 : ((v :: rest).drop (gp0Step (v :: rest)).2.1).length ≤ m := by
          simp only [List.length_drop, List.length_cons] at *
          omega
        rw [ih _ _ hdl hdl2]

/-- On a well-formed stream the consumed word counts sum to the stream
length (fuel-indexed form). -/
theorem gp0_sumAux :
    ∀ fuel ws, ws.length ≤ fuel → gp0WellFormedAux fuel ws = true →
      ((parseGp0Aux fuel ws).map Prod.fst).sum = ws.length := by
  intro fuel
  induction fuel with
  | zero =>
    intro ws h1 _
    have hnil : ws = [] := List.length_eq_zero.mp (Nat.le_zero.mp h1)
    subst hnil
    simp [parseGp0Aux]
  | succ n ih =>
    intro ws h1 hwf
    cases ws with
    | nil => simp [parseGp0Aux]
    | cons v rest =>
      obtain ⟨hc1, hc2⟩ := gp0Step_consumed_pos (v :: rest) (by simp)
      simp only [gp0WellFormedAux, Bool.and_eq_true] at hwf
      obtain ⟨hok, hwfrest⟩ := hwf
      have hsome := gp0Step_ok_some (v :: rest) (by simp) hok
      obtain ⟨op, hop⟩ := Option.isSome_iff_exists.mp hsome
      simp only [parseGp0Aux, hop, List.map_cons, List.sum_cons]
      have hdl : ((v :: rest).drop (gp0Step (v :: rest)).2.1).length ≤ n := by
        simp only [List.length_drop, List.length_cons] at *
        omega
      rw [ih _ hdl hwfrest]
      simp only [List.length_drop, List.length_cons] at *
      omega

/-- Every emitted operation records a consumed count of at least one. -/
theorem gp0_consumedPosAux :
    ∀ fuel ws p, p ∈ parseGp0Aux fuel ws → 1 ≤ p.1 := by
  intro fuel
  induction fuel with
  | zero => intro ws p hp; simp [parseGp0Aux] at hp
  | succ n ih =>
    intro ws p hp
    cases ws with
    | nil => simp [parseGp0Aux] at hp
    | cons v rest =>
      obtain ⟨hc1, -⟩ := gp0Step_consumed_pos (v :: rest) (by simp)
      simp only [parseGp0Aux] at hp
      cases hop : (gp0Step (v :: rest)).1 with
      | none =>
        rw [hop] at hp
        exact ih _ p hp
      | some op =>
        rw [hop] at hp
        rcases List.mem_cons.mp hp with h | h
        · rw [h]
          exact hc1
        · exact ih _ p h

/-- C1: for every well-formed (non-truncated) GP0 word stream, the sum of
consumed word counts over all decoded operations equals the stream
length, and every consumed count is at least 1. -/
theorem gp0_stream_consumed_sum (ws : List Nat) (h : gp0WellFormed ws = true) :
    ((parse_gp0_stream ws).map Prod.fst).sum = ws.length ∧
      ∀ p ∈ parse_gp0_stream ws, 1 ≤ p.1 :=
  ⟨gp0_sumAux ws.length ws le_rfl h,
    fun p hp => gp0_consumedPosAux ws.length ws p hp⟩

/-- Witness for C1: the sum law evaluated on a concrete 4-word flat
triangle stream. -/
theorem gp0_stream_consumed_sum_witness :
    ((parse_gp0_stream [0x20007C1F, 0x0014000A, 0x001E0064, 0x00C80032]).map
        Prod.fst).sum = 4 ∧
      ∀ p ∈ parse_gp0_stream [0x20007C1F, 0x0014000A, 0x001E0064, 0x00C80032],
        1 ≤ p.1 :=
  gp0_stream_consumed_sum [0x20007C1F, 0x0014000A, 0x001E0064, 0x00C80032]
    (by decide)

/-- C4 counterexample: a stream holding a single 0xA0 (VRAM write) opcode
word lacks its required operand words, yet the decoder emits no operation
at all, in particular no incomplete marker consuming the opcode word; the
claim that every classified short operation yields an incomplete marker
is false. -/
theorem truncated_vram_write_no_marker :
    parse_gp0_stream [0xA0000000] = [] ∧
      ¬∃ op, (1, op) ∈ parse_gp0_stream [0xA0000000] ∧
        op.isIncomplete = true := by
  refine ⟨rfl, ?_⟩
  rintro ⟨op, hmem, -⟩
  have hnil : parse_gp0_stream [0xA0000000] = [] := rfl
  rw [hnil] at hmem
  exact List.not_mem_nil _ hmem

/-- C4 amended: for opcodes 0x20..0x7F (polygons, lines, rectangles),
whenever the classified operation's required operand words exceed the
remaining stream (the decode step reports truncation), the decoder emits
an incomplete marker that consumes exactly the opcode word and then
continues decoding from the next word. The 0xA0 VRAM-write opcode is
excluded: short of its 3 header words it is skipped with no marker, and
with a truncated payload it is clamped to the stream end. -/
theorem truncated_primitive_incomplete_marker (v : Nat) (rest : List Nat)
    (hlo : 0x20 ≤ (v >>> 24) &&& 0xFF) (hhi : (v >>> 24) &&& 0xFF ≤ 0x7F)
    (htrunc : (gp0Step (v :: rest)).2.2 = false) :
    ∃ op, parse_gp0_stream (v :: rest) = (1, op) :: parse_gp0_stream rest ∧
      op.isIncomplete = true := by
  have hstep : ∃ op, gp0Step (v :: rest) = (some op, 1, false) ∧
      op.isIncomplete = true := by
    revert htrunc
    simp only [gp0Step]
    split_ifs <;> intro htrunc <;>
      first
        | exact ⟨_, rfl, rfl⟩
        | omega
        | simp at htrunc
  obtain ⟨op, hstep, hinc⟩ := hstep
  refine ⟨op, ?_, hinc⟩
  simp only [parse_gp0_stream, List.length_cons, parseGp0Aux, hstep,
    List.drop_succ_cons, List.drop_zero]

/-- Witness for C4: the amended law evaluated on a lone flat-quad opcode
word 0x28000000 whose 4 operand words are missing. -/
theorem truncated_primitive_incomplete_marker_witness :
    ∃ op, parse_gp0_stream [0x28000000] = (1, op) :: parse_gp0_stream [] ∧
      op.isIncomplete = true :=
  truncated_primitive_incomplete_marker 0x28000000 [] (by decide) (by decide)
    (by decide)

/-- If the first terminator word among the scanned positions (1, 1+s,
1+2s, ...) sits at index j inside the stream, the polyline scan stops
exactly at j. -/
theorem polylineScanAux_first (ws : List Nat) (s : Nat) (hs : 1 ≤ s) (j : Nat)
    (hlt : j < ws.length) (hterm : isPolylineTerm (ws.getD j 0) = true)
    (hfirst : ∀ i, 1 ≤ i → i < j → (i - 1) % s = 0 →
      isPolylineTerm (ws.getD i 0) = false) :
    ∀ k, ∀ fuel j0, k < fuel → 1 ≤ j0 → (j0 - 1) % s = 0 → j = j0 + k * s →
      polylineScanAux ws s fuel j0 = j := by
  intro k
  induction k with
  | zero =>
    intro fuel j0 hk h1 hmod hj
    have hj0 : j0 = j := by omega
    subst hj0
    cases fuel with
    | zero => omega
    | succ n =>
      simp only [polylineScanAux]
      rw [if_pos hlt, if_pos hterm]
  | succ k ih =>
    intro fuel j0 hk h1 hmod hj
    cases fuel with
    | zero => omega
    | succ n =>
      rw [Nat.succ_mul] at hj
      have hj0lt : j0 < j := by omega
      have hf := hfirst j0 h1 hj0lt hmod
      simp only [polylineScanAux]
      rw [if_pos (by omega : j0 < ws.length), if_neg (by rw [hf]; simp)]
      have hmod2 : (j0 + s - 1) % s = 0 := by
        have he : j0 + s - 1 = (j0 - 1) + s := by omega
        rw [he, Nat.add_mod_right]
        exact hmod
      exact ih n (j0 + s) (by omega) (by omega) hmod2 (by omega)

/-- The polyline scan started at index 1 stops at the first terminator
among the scanned positions. -/
theorem polylineScan_first (ws : List Nat) (s : Nat) (hs : 1 ≤ s) (j : Nat)
    (h1 : 1 ≤ j) (hlt : j < ws.length)
    (hmod : (j - 1) % s = 0)
    (hterm : isPolylineTerm (ws.getD j 0) = true)
    (hfirst : ∀ i, 1 ≤ i → i < j → (i - 1) % s = 0 →
      isPolylineTerm (ws.getD i 0) = false) :
    polylineScan ws s = j := by
  obtain ⟨k, hk⟩ := Nat.dvd_of_mod_eq_zero hmod
  have hcomm : s * k = k * s := Nat.mul_comm s k
  have hks : k ≤ s * k := Nat.le_mul_of_pos_left k (by omega)
  exact polylineScanAux_first ws s hs j hlt hterm hfirst k ws.length 1
    (by omega) le_rfl (by simp) (by omega)

/-- C10: a polyline command (opcode 0x40..0x5F with bit 0x08 set) whose
first terminator word at a scanned position (stepping 2 words when
shaded, else 1) sits at index j consumes exactly the opcode word and the
j-1 parameter words strictly before the terminator; the terminator word
itself is not consumed and is decoded as the first word of the next
operation. -/
theorem polyline_terminator_consumption (v : Nat) (rest : List Nat) (j : Nat)
    (hlo : 0x40 ≤ (v >>> 24) &&& 0xFF) (hhi : (v >>> 24) &&& 0xFF ≤ 0x5F)
    (hpl : (v >>> 24) &&& 0xFF &&& 0x08 ≠ 0)
    (h1 : 1 ≤ j) (hlt : j < (v :: rest).length)
    (hmod : (j - 1) % (if (v >>> 24) &&& 0xFF &&& 0x10 ≠ 0 then 2 else 1) = 0)
    (hterm : isPolylineTerm ((v :: rest).getD j 0) = true)
    (hfirst : ∀ i, 1 ≤ i → i < j →
      (i - 1) % (if (v >>> 24) &&& 0xFF &&& 0x10 ≠ 0 then 2 else 1) = 0 →
      isPolylineTerm ((v :: rest).getD i 0) = false) :
    parse_gp0_stream (v :: rest) =
      (j, GP0Op.line j) :: parse_gp0_stream ((v :: rest).drop j) := by
  have hs : 1 ≤ (if (v >>> 24) &&& 0xFF &&& 0x10 ≠ 0 then 2 else 1) := by
    split_ifs <;> omega
  have hscan :
      polylineScan (v :: rest)
        (if (v >>> 24) &&& 0xFF &&& 0x10 ≠ 0 then 2 else 1) = j :=
    polylineScan_first _ _ hs j h1 hlt hmod hterm hfirst
  have hstep : gp0Step (v :: rest) = (some (.line j), j, true) := by
    simp only [gp0Step]
    rw [if_neg (by omega), if_neg (by omega), if_pos ⟨hlo, hhi⟩, if_pos hpl,
      hscan, if_pos (Nat.le_of_lt hlt)]
  simp only [parse_gp0_stream, List.length_cons, parseGp0Aux, hstep]
  congr 1
  apply parseGp0Aux_fuel_congr
  · simp only [List.length_drop, List.length_cons]
    omega
  · exact le_rfl

/-- Witness for C10: an unshaded polyline whose terminator is the fourth
word; the decoded operation consumes 3 words and the terminator heads the
continuation. -/
theorem polyline_terminator_consumption_witness :
    parse_gp0_stream [0x48000000, 0x00010001, 0x00020002, 0x50005000,
        0x00000005] =
      (3, GP0Op.line 3) :: parse_gp0_stream
        ([0x48000000, 0x00010001, 0x00020002, 0x50005000,
            0x00000005].drop 3) :=
  polyline_terminator_consumption 0x48000000
    [0x00010001, 0x00020002, 0x50005000, 0x00000005] 3
    (by decide) (by decide) (by decide) (by decide) (by decide) (by decide)
    (by decide) (by decide)

/-- C3 counterexample: on the minimal crafted capture (header, one
TraceBegin, one flat-triangle GP0 packet, one VSync) the frame-0 dump
never reports a total frame count of 1: the frame index records two
boundary offsets (the TraceBegin and the VSync), so the reported total
is 2. -/
theorem minimal_capture_total_frames_ne_one :
    MainOutcome.totalFramesOf (mainFrameMode capture3 none) = some 2 ∧
      some (2 : Nat) ≠ some 1 :=
  ⟨rfl, by decide⟩

/-- C3 amended: decoding the minimal crafted capture in frame-0 mode
prints exactly one TRI_FLAT operation, whose three vertex
coordinate/color tuples match the input words, and then reports a total
frame count of 2 (the length of the frame index: one TraceBegin plus one
VSync boundary). -/
theorem minimal_capture_frame0_dump :
    mainFrameMode capture3 none =
      MainOutcome.ok
        [OutEvent.frameHeader 0,
          OutEvent.gp0op (GP0Op.poly false false false
            [⟨10, 20, 255, 0, 255⟩, ⟨100, 30, 255, 0, 255⟩,
              ⟨50, 200, 255, 0, 255⟩]),
          OutEvent.vsync] 2 1 := rfl

/-- C5: on the synthetic stream of one TraceBegin followed by 3 VSync
packets (with one data packet inside each delimited frame), the frame
index has length 4, and requesting frame 2 dumps exactly the data
packets lying strictly between the 2nd and 3rd index offsets. -/
theorem frame_segmenter_synthetic_frames :
    (firstPassOffsets (packetsWithPos capture5 14)).length = 4 ∧
      (requestFrame capture5 2).dumped =
        dataPacketsBetween (packetsWithPos capture5 14)
          ((firstPassOffsets (packetsWithPos capture5 14)).getD 2 0)
          ((firstPassOffsets (packetsWithPos capture5 14)).getD 3 0) :=
  ⟨rfl, rfl⟩

/-- If no packet qualifies as the initial full-frame blit, the vram scan
comes back empty. -/
theorem findVramWords_none (pkts : List (Nat × List Nat))
    (h : ∀ p ∈ pkts, qualifiesVram p = false) : findVramWords pkts = none := by
  induction pkts with
  | nil => rfl
  | cons p rest ih =>
    have hp := h p (List.mem_cons_self p rest)
    simp only [findVramWords, hp, Bool.false_eq_true, if_false]
    exact ih (fun q hq => h q (List.mem_cons_of_mem p hq))

/-- C9: on every capture whose packet stream contains no GP0 payload
beginning with opcode 0xA0, zero origin words and at least 3 + 262144
words, the vram mode reports not-found, exits with status 1 and writes
no artifacts. -/
theorem vram_extractor_not_found (d : List Nat) (pos0 : Nat)
    (hh : parseHeader d = some pos0)
    (hq : ∀ p ∈ (packetsWithPos d pos0).map Prod.fst, qualifiesVram p = false) :
    vramMode d = some ⟨false, 1, []⟩ := by
  simp only [vramMode, hh]
  rw [findVramWords_none _ hq]

/-- Witness for C9: the not-found outcome on a concrete capture holding
one TraceBegin and one small GP0 packet. -/
theorem vram_extractor_not_found_witness :
    vramMode capture9 = some ⟨false, 1, []⟩ :=
  vram_extractor_not_found capture9 14 (by decide) (by decide)

end PsxGpuDump
